import Mathlib

/-!
Shallow embedding of the pomodoro phase/timer state machine from
`src/app/pomodoro/page.tsx` (primary UI variant) and `src/unnamed/part_000`
(second UI variant, namespace `V3` below, after its storage key
`pomodoro_timer_v3`).

Modelling conventions:
* JavaScript numbers that flow into `clampInt` are modelled by `JSNum`
  (a rational for the finite case, plus NaN and the two infinities);
  `Number.isFinite` is false exactly on the three non-finite cases and
  `Math.trunc` truncates toward zero.
* Integer-valued state (minutes, seconds, session counts) is modelled by `ℤ`.
  JavaScript's `%` remainder (sign of the dividend) is `Int.tmod`.
* React state updates are modelled by explicit state passing.  The effect
  `useEffect(() => { if (!isRunning) setSecondsLeft(phaseTotalSeconds) },
  [phaseTotalSeconds, isRunning])` re-runs after every render in which one of
  its two dependencies changed; each operation below applies it exactly when
  the operation changes `isRunning` or `phaseTotalSeconds`.
* The `setInterval` handle (`intervalRef` / `clearTimer`) is a host resource:
  its only scheduler-visible consequence is which states receive ticks, which
  is modelled by `tickOp` acting only on running states and by `deliverTicks`
  stopping delivery once a completion has fired (the completing tick's
  `finishPhase` clears the interval).
-/

/-- Phase of the cycle, `type Phase = "work" | "break" | "longBreak"`. -/
inductive Phase where
  | work
  | «break»
  | longBreak
deriving DecidableEq, Repr

/-- A JavaScript number as seen by `clampInt`: finite (rational) or one of
the non-finite values `NaN`, `Infinity`, `-Infinity`. -/
inductive JSNum where
  | nan
  | posInf
  | negInf
  | fin (q : ℚ)
deriving DecidableEq

/-- Models `Math.trunc`: truncation toward zero (the denominator of a `ℚ` is
positive, so truncating division of numerator by denominator is exactly
JavaScript's truncation). -/
def jsTrunc (q : ℚ) : ℤ :=
  Int.tdiv q.num q.den

/-- Function `clampInt(n, min, max)` from both variants:
`if (!Number.isFinite(n)) return min; return Math.max(min, Math.min(max, Math.trunc(n)))`. -/
def clampInt (n : JSNum) (lo hi : ℤ) : ℤ :=
  match n with
  | .fin q => max lo (min hi (jsTrunc q))
  | _ => lo

/-- JavaScript's `%` on integers: remainder truncated toward zero
(the sign follows the dividend). -/
def jsMod (a b : ℤ) : ℤ := Int.tmod a b

/-- The scheduling-relevant preference fields of the `prefs` state object in
`page.tsx` (`workMin`, `breakMin`, `longBreakMin`, `longEvery`,
`autoStartNext`, `soundOn`). -/
structure Prefs where
  workMin : ℤ
  breakMin : ℤ
  longBreakMin : ℤ
  longEvery : ℤ
  autoStartNext : Bool
  soundOn : Bool
deriving DecidableEq, Repr

/-- The default preferences passed to `useLocalStorageState(LS_KEY, {...})`. -/
def defaultPrefs : Prefs :=
  { workMin := 25, breakMin := 5, longBreakMin := 15, longEvery := 4
    autoStartNext := false, soundOn := true }

/-- The timer state owned by the component: `phase`, `secondsLeft`,
`isRunning`, `workSessionsDone`. -/
structure TimerState where
  phase : Phase
  secondsLeft : ℤ
  isRunning : Bool
  workSessionsDone : ℤ
deriving DecidableEq, Repr

/-- Combined component state: preferences plus timer state. -/
structure AppState where
  prefs : Prefs
  timer : TimerState
deriving DecidableEq, Repr

/-- Function `phaseTotalSeconds` (the `useMemo` value): full duration in seconds of a phase
under the given preferences. -/
def phaseTotalSeconds (p : Prefs) (ph : Phase) : ℤ :=
  match ph with
  | .work => p.workMin * 60
  | .«break» => p.breakMin * 60
  | .longBreak => p.longBreakMin * 60

/-- The effect `if (!isRunning) setSecondsLeft(phaseTotalSeconds)`, applied
after a render in which `isRunning` or `phaseTotalSeconds` changed. -/
def syncSecondsLeft (p : Prefs) (t : TimerState) : TimerState :=
  if t.isRunning then t else { t with secondsLeft := phaseTotalSeconds p t.phase }

/-- Component-mount state: `phase = work`, `isRunning = false`,
`workSessionsDone = 0`, `secondsLeft` initialised to `phaseTotalSeconds`. -/
def initState (p : Prefs) : AppState :=
  { prefs := p
    timer := { phase := .work, secondsLeft := phaseTotalSeconds p .work
               isRunning := false, workSessionsDone := 0 } }

/-- Function `nextPhase(from)`: from `work`, increment the session count and choose
`longBreak` when `longEvery > 0 && nextCount % longEvery === 0`, else
`break`; from either break phase, go to `work` leaving the count alone.
This function does not touch `secondsLeft` (the sync effect does). -/
def nextPhase (p : Prefs) (t : TimerState) : TimerState :=
  match t.phase with
  | .work =>
      let nextCount := t.workSessionsDone + 1
      let useLong := decide (0 < p.longEvery) && decide (jsMod nextCount p.longEvery = 0)
      { t with workSessionsDone := nextCount
               phase := if useLong then .longBreak else .«break» }
  | _ => { t with phase := .work }

/-- Function `finishPhase()` together with the renders it triggers: stop running,
clear the interval, advance the phase; the sync effect then recomputes
`secondsLeft` for the new phase (since `isRunning` is now false); finally,
when `autoStartNext` is set, the deferred `setIsRunning(true)` fires after
the sync effect has run.  The beep is the notification side channel and has
no scheduler-visible state. -/
def finishPhase (a : AppState) : AppState :=
  let t1 := { a.timer with isRunning := false }
  let t2 := nextPhase a.prefs t1
  let t3 := syncSecondsLeft a.prefs t2
  { a with timer := if a.prefs.autoStartNext then { t3 with isRunning := true } else t3 }

/-- The body of the `setSecondsLeft` updater inside the interval callback:
`s <= 1` yields `0` and schedules `finishPhase` (second component `true`);
otherwise the value just decrements. -/
def tickCell (s : ℤ) : ℤ × Bool :=
  if s ≤ 1 then (0, true) else (s - 1, false)

/-- One interval tick as delivered to the component.  Ticks exist only while
`isRunning` (the interval is created by the `[isRunning]` effect and torn
down when it becomes false), and a completing tick runs the deferred
`finishPhase` before the next tick can arrive.  The nested `if` is
`tickCell` inlined: write `0` and defer `finishPhase` when `s <= 1`, else
write `s - 1`. -/
def tickOp (a : AppState) : AppState :=
  if a.timer.isRunning then
    if a.timer.secondsLeft ≤ 1 then
      finishPhase { a with timer := { a.timer with secondsLeft := 0 } }
    else
      { a with timer := { a.timer with secondsLeft := a.timer.secondsLeft - 1 } }
  else a

/-- Delivery of `n` interval callbacks delivered against a countdown standing at `s`.
Returns the value left in `secondsLeft` by the callbacks together with the
number of completion events fired.  Delivery stops at a completion: the
completing tick's `finishPhase` clears the interval (and sets
`isRunning = false`, whose effect also clears it), so no further tick of
this phase is delivered. -/
def deliverTicks (s : ℤ) (n : ℕ) : ℤ × ℕ :=
  match n with
  | 0 => (s, 0)
  | n + 1 =>
      let (s', fired) := tickCell s
      if fired then (s', 1) else deliverTicks s' n

/-- The Start half of the Start/Pause toggle: `setIsRunning(true)` from a
paused state.  The sync effect re-runs (`isRunning` changed) but its guard
`!isRunning` now fails, so `secondsLeft` is untouched. -/
def startOp (a : AppState) : AppState :=
  { a with timer := { a.timer with isRunning := true } }

/-- The Pause half of the Start/Pause toggle: `setIsRunning(false)` from a
running state.  `isRunning` changed, so the sync effect re-runs; its guard
`!isRunning` now holds and it executes `setSecondsLeft(phaseTotalSeconds)`. -/
def pauseOp (a : AppState) : AppState :=
  { a with timer := syncSecondsLeft a.prefs { a.timer with isRunning := false } }

/-- Function `resetPhase()`: stop running, clear the interval, reset `secondsLeft`
to the current phase's full duration.  The sync effect re-runs and writes
the same value. -/
def resetPhase (a : AppState) : AppState :=
  { a with timer := { a.timer with isRunning := false
                                   secondsLeft := phaseTotalSeconds a.prefs a.timer.phase } }

/-- Function `resetAll()`: stop running, back to `work`, zero the session count,
`secondsLeft = prefs.workMin * 60`.  Preferences are not touched.  The sync
effect re-runs and writes the same value (`phaseTotalSeconds` of `work`). -/
def resetAll (a : AppState) : AppState :=
  { a with timer := { phase := .work, secondsLeft := a.prefs.workMin * 60
                      isRunning := false, workSessionsDone := 0 } }

/-- Function `skip()`: stop running, clear the interval, beep (no state), advance the
phase; the sync effect then recomputes `secondsLeft` for the new phase. -/
def skip (a : AppState) : AppState :=
  let t1 := { a.timer with isRunning := false }
  let t2 := nextPhase a.prefs t1
  { a with timer := syncSecondsLeft a.prefs t2 }

/-- A preset catalog entry (its four numeric fields). -/
structure Preset where
  workMin : ℤ
  breakMin : ℤ
  longBreakMin : ℤ
  longEvery : ℤ
deriving DecidableEq, Repr

/-- Function `applyPreset(preset)`: stop running, clear the interval, overwrite the
four duration/cadence fields (clamped) keeping every other preference, and
set `secondsLeft` to the current phase's full duration under the new
preferences.  The sync effect re-runs and writes the same value. -/
def applyPreset (pr : Preset) (a : AppState) : AppState :=
  let newPrefs : Prefs :=
    { a.prefs with
        workMin := clampInt (.fin pr.workMin) 1 180
        breakMin := clampInt (.fin pr.breakMin) 1 120
        longBreakMin := clampInt (.fin pr.longBreakMin) 1 180
        longEvery := clampInt (.fin pr.longEvery) 0 20 }
  let nextSeconds := phaseTotalSeconds newPrefs a.timer.phase
  { prefs := newPrefs
    timer := { a.timer with isRunning := false, secondsLeft := nextSeconds } }

/-- The `PRESETS` catalog entry `Classic 25/5`. -/
def classicPreset : Preset :=
  { workMin := 25, breakMin := 5, longBreakMin := 15, longEvery := 4 }

namespace V3

/-!
The second UI variant, `src/unnamed/part_000` (storage key
`pomodoro_timer_v3`).  Its preference object carries four extra cosmetic
fields (`bgColor`, `accentColor`, `noise`, `glow`); its scheduling
functions are embedded here independently so that the equivalence with the
primary variant is a theorem, not a definition reuse.
-/

/-- Function `clampInt` as written in `part_000` (same text as the primary variant). -/
def clampInt (n : JSNum) (lo hi : ℤ) : ℤ :=
  match n with
  | .fin q => max lo (min hi (jsTrunc q))
  | _ => lo

/-- The `prefs` state object of `part_000`: the scheduling fields plus the
cosmetic theme fields. -/
structure Prefs where
  workMin : ℤ
  breakMin : ℤ
  longBreakMin : ℤ
  longEvery : ℤ
  autoStartNext : Bool
  soundOn : Bool
  bgColor : String
  accentColor : String
  noise : ℚ
  glow : ℚ
deriving DecidableEq, Repr

/-- Combined state of the `part_000` component. -/
structure AppState where
  prefs : Prefs
  timer : TimerState
deriving DecidableEq, Repr

/-- Function `phaseTotalSeconds` of `part_000`. -/
def phaseTotalSeconds (p : Prefs) (ph : Phase) : ℤ :=
  match ph with
  | .work => p.workMin * 60
  | .«break» => p.breakMin * 60
  | .longBreak => p.longBreakMin * 60

/-- The `if (!isRunning) setSecondsLeft(phaseTotalSeconds)` effect of
`part_000`. -/
def syncSecondsLeft (p : Prefs) (t : TimerState) : TimerState :=
  if t.isRunning then t else { t with secondsLeft := phaseTotalSeconds p t.phase }

/-- Function `nextPhase(from)` of `part_000`. -/
def nextPhase (p : Prefs) (t : TimerState) : TimerState :=
  match t.phase with
  | .work =>
      let nextCount := t.workSessionsDone + 1
      let useLong := decide (0 < p.longEvery) && decide (jsMod nextCount p.longEvery = 0)
      { t with workSessionsDone := nextCount
               phase := if useLong then .longBreak else .«break» }
  | _ => { t with phase := .work }

/-- Function `finishPhase()` of `part_000` with its triggered renders, as in the
primary variant. -/
def finishPhase (a : AppState) : AppState :=
  let t1 := { a.timer with isRunning := false }
  let t2 := nextPhase a.prefs t1
  let t3 := syncSecondsLeft a.prefs t2
  { a with timer := if a.prefs.autoStartNext then { t3 with isRunning := true } else t3 }

/-- One interval tick of `part_000` (same callback body). -/
def tickOp (a : AppState) : AppState :=
  if a.timer.isRunning then
    if a.timer.secondsLeft ≤ 1 then
      finishPhase { a with timer := { a.timer with secondsLeft := 0 } }
    else
      { a with timer := { a.timer with secondsLeft := a.timer.secondsLeft - 1 } }
  else a

/-- Function `resetPhase()` of `part_000`. -/
def resetPhase (a : AppState) : AppState :=
  { a with timer := { a.timer with isRunning := false
                                   secondsLeft := phaseTotalSeconds a.prefs a.timer.phase } }

/-- Function `resetAll()` of `part_000`. -/
def resetAll (a : AppState) : AppState :=
  { a with timer := { phase := .work, secondsLeft := a.prefs.workMin * 60
                      isRunning := false, workSessionsDone := 0 } }

/-- Function `skip()` of `part_000`. -/
def skip (a : AppState) : AppState :=
  let t1 := { a.timer with isRunning := false }
  let t2 := nextPhase a.prefs t1
  { a with timer := syncSecondsLeft a.prefs t2 }

/-- Function `applyPreset(preset)` of `part_000`: overwrites the four scheduling
fields, spreading the rest of `prefs` (so the cosmetic fields survive). -/
def applyPreset (pr : Preset) (a : AppState) : AppState :=
  let newPrefs : Prefs :=
    { a.prefs with
        workMin := clampInt (.fin pr.workMin) 1 180
        breakMin := clampInt (.fin pr.breakMin) 1 120
        longBreakMin := clampInt (.fin pr.longBreakMin) 1 180
        longEvery := clampInt (.fin pr.longEvery) 0 20 }
  let nextSeconds := phaseTotalSeconds newPrefs a.timer.phase
  { prefs := newPrefs
    timer := { a.timer with isRunning := false, secondsLeft := nextSeconds } }

end V3

/-- Projection of a `part_000` preference object onto the scheduling
fields shared with the primary variant. -/
def corePrefs (p : V3.Prefs) : Prefs :=
  { workMin := p.workMin, breakMin := p.breakMin
    longBreakMin := p.longBreakMin, longEvery := p.longEvery
    autoStartNext := p.autoStartNext, soundOn := p.soundOn }

/-- Projection onto the scheduling state shared with the primary variant. -/
def coreApp (a : V3.AppState) : AppState :=
  { prefs := corePrefs a.prefs, timer := a.timer }

/-!
### Persistence (`useLocalStorageState` initialiser)

`const raw = localStorage.getItem(key); if (!raw) return initial;
return JSON.parse(raw) as T;` inside a `try` whose `catch` returns `initial`.
A successfully parsed JSON object is returned as-is — the `as T` cast
performs no validation, so fields the stored record lacks are simply absent
(`undefined`) in the resulting value.  `StoredRecord` models the record the
component's `prefs` state ends up holding: each scheduling field is `none`
when the stored object did not supply it.  Extra (unknown) fields of the
stored object are invisible to field access and are not modelled.
-/

/-- A parsed preferences record; `none` marks a field absent from the
stored JSON object. -/
structure StoredRecord where
  workMin : Option ℚ
  breakMin : Option ℚ
  longBreakMin : Option ℚ
  longEvery : Option ℚ
  autoStartNext : Option Bool
  soundOn : Option Bool
deriving DecidableEq, Repr

/-- The `initial` argument of `useLocalStorageState` (all fields present,
at their default values). -/
def defaultStored : StoredRecord :=
  { workMin := some 25, breakMin := some 5, longBreakMin := some 15
    longEvery := some 4, autoStartNext := some false, soundOn := some true }

/-- What the persistence layer handed to `load`: `missing` is
`getItem = null`, `empty` the falsy empty string, `malformed` a string on
which `JSON.parse` throws, `wellFormed r` a string parsing to the object
`r`. -/
inductive RawStored where
  | missing
  | empty
  | malformed
  | wellFormed (r : StoredRecord)
deriving DecidableEq

/-- The `useState` initialiser of `useLocalStorageState`: falls back to the
defaults when the key is absent, the raw string is falsy, or `JSON.parse`
throws; otherwise returns the parsed record unchanged.  Total — the `try`
/`catch` means it never raises to the caller. -/
def load (raw : RawStored) : StoredRecord :=
  match raw with
  | .wellFormed r => r
  | _ => defaultStored

/-- A record supplies every Preferences field. -/
def StoredRecord.complete (r : StoredRecord) : Prop :=
  r.workMin.isSome ∧ r.breakMin.isSome ∧ r.longBreakMin.isSome ∧
  r.longEvery.isSome ∧ r.autoStartNext.isSome ∧ r.soundOn.isSome

instance (r : StoredRecord) : Decidable r.complete := by
  unfold StoredRecord.complete; infer_instance

/-- A stored record with every field missing: the JSON object `{}`. -/
def blankStored : StoredRecord :=
  { workMin := none, breakMin := none, longBreakMin := none
    longEvery := none, autoStartNext := none, soundOn := none }

/-!
### Preference edits (the `onChange` handlers)
-/

/-- The `Work (min)` input handler value:
`clampInt(Number(e.target.value), 1, 180)`. -/
def workMinEdit (raw : JSNum) : ℤ := clampInt raw 1 180

/-- The `Break (min)` input handler value:
`clampInt(Number(e.target.value), 1, 120)`. -/
def breakMinEdit (raw : JSNum) : ℤ := clampInt raw 1 120

/-- The `Long break (min)` input handler value:
`clampInt(Number(e.target.value), 1, 180)`. -/
def longBreakMinEdit (raw : JSNum) : ℤ := clampInt raw 1 180

/-- The `Long every` input handler value:
`clampInt(Number(e.target.value), 0, 20)`. -/
def longEveryEdit (raw : JSNum) : ℤ := clampInt raw 0 20

/-- Function `setPrefs(next)` together with the render it triggers: the sync effect
re-runs exactly when one of its dependencies changed; a preference edit
leaves `isRunning` alone, so it re-runs exactly when `phaseTotalSeconds`
changed. -/
def setPrefsRender (p' : Prefs) (a : AppState) : AppState :=
  { prefs := p'
    timer :=
      if phaseTotalSeconds p' a.timer.phase = phaseTotalSeconds a.prefs a.timer.phase
      then a.timer else syncSecondsLeft p' a.timer }

/-- Editing the `Work (min)` field. -/
def setWorkMin (raw : JSNum) (a : AppState) : AppState :=
  setPrefsRender { a.prefs with workMin := workMinEdit raw } a

/-- Editing the `Break (min)` field. -/
def setBreakMin (raw : JSNum) (a : AppState) : AppState :=
  setPrefsRender { a.prefs with breakMin := breakMinEdit raw } a

/-- Editing the `Long break (min)` field. -/
def setLongBreakMin (raw : JSNum) (a : AppState) : AppState :=
  setPrefsRender { a.prefs with longBreakMin := longBreakMinEdit raw } a

/-- Editing the `Long every` field. -/
def setLongEvery (raw : JSNum) (a : AppState) : AppState :=
  setPrefsRender { a.prefs with longEvery := longEveryEdit raw } a

/-- The `Sound: ON/OFF` toggle button. -/
def toggleSound (a : AppState) : AppState :=
  setPrefsRender { a.prefs with soundOn := !a.prefs.soundOn } a

/-- The `Auto: ON/OFF` toggle button. -/
def toggleAutoStart (a : AppState) : AppState :=
  setPrefsRender { a.prefs with autoStartNext := !a.prefs.autoStartNext } a

/-!
### Reachability
-/

/-- Every numeric preference field lies in its declared range. -/
def PrefsInRange (p : Prefs) : Prop :=
  (1 ≤ p.workMin ∧ p.workMin ≤ 180) ∧
  (1 ≤ p.breakMin ∧ p.breakMin ≤ 120) ∧
  (1 ≤ p.longBreakMin ∧ p.longBreakMin ≤ 180) ∧
  (0 ≤ p.longEvery ∧ p.longEvery ≤ 20)

instance (p : Prefs) : Decidable (PrefsInRange p) := by
  unfold PrefsInRange; infer_instance

/-- States reachable from a component mount with in-range preferences,
under every scheduler operation the UI exposes. -/
inductive Reachable : AppState → Prop where
  | init (p : Prefs) : PrefsInRange p → Reachable (initState p)
  | tick {a} : Reachable a → Reachable (tickOp a)
  | start {a} : Reachable a → Reachable (startOp a)
  | pause {a} : Reachable a → Reachable (pauseOp a)
  | reset {a} : Reachable a → Reachable (resetPhase a)
  | resetEverything {a} : Reachable a → Reachable (resetAll a)
  | skipPhase {a} : Reachable a → Reachable (skip a)
  | preset {a} (pr : Preset) : Reachable a → Reachable (applyPreset pr a)
  | editWork {a} (raw : JSNum) : Reachable a → Reachable (setWorkMin raw a)
  | editBreak {a} (raw : JSNum) : Reachable a → Reachable (setBreakMin raw a)
  | editLongBreak {a} (raw : JSNum) : Reachable a → Reachable (setLongBreakMin raw a)
  | editLongEvery {a} (raw : JSNum) : Reachable a → Reachable (setLongEvery raw a)
  | sound {a} : Reachable a → Reachable (toggleSound a)
  | auto {a} : Reachable a → Reachable (toggleAutoStart a)

/-- A concrete reachable running state: default mount, Start pressed, ten
ticks delivered (25:00 counted down to 24:50). -/
def pauseDemo : AppState :=
  tickOp^[10] (startOp (initState defaultPrefs))

/-!
## Helper lemmas
-/

theorem clampInt_lb (n : JSNum) (lo hi : ℤ) : lo ≤ clampInt n lo hi := by
  cases n <;> first | exact le_rfl | exact le_max_left _ _

theorem clampInt_ub (n : JSNum) (lo hi : ℤ) (h : lo ≤ hi) : clampInt n lo hi ≤ hi := by
  cases n <;> first | exact h | exact max_le h (min_le_left _ _)

theorem jsMod_eq_zero_iff {a b : ℤ} (ha : 0 ≤ a) (hb : 0 ≤ b) :
    jsMod a b = 0 ↔ b ∣ a := by
  unfold jsMod
  rw [Int.tmod_eq_emod ha hb]
  exact ⟨Int.dvd_of_emod_eq_zero, Int.emod_eq_zero_of_dvd⟩

theorem phaseTotalSeconds_pos {p : Prefs} (ph : Phase) (h : PrefsInRange p) :
    0 < phaseTotalSeconds p ph := by
  obtain ⟨⟨hw, _⟩, ⟨hb, _⟩, ⟨hl, _⟩, _⟩ := h
  cases ph <;> simp only [phaseTotalSeconds] <;> omega

theorem nextPhase_secondsLeft (p : Prefs) (t : TimerState) :
    (nextPhase p t).secondsLeft = t.secondsLeft := by
  unfold nextPhase; split <;> rfl

theorem nextPhase_isRunning (p : Prefs) (t : TimerState) :
    (nextPhase p t).isRunning = t.isRunning := by
  unfold nextPhase; split <;> rfl

theorem syncSecondsLeft_nonneg {p : Prefs} (t : TimerState) (hp : PrefsInRange p)
    (ht : 0 ≤ t.secondsLeft) : 0 ≤ (syncSecondsLeft p t).secondsLeft := by
  unfold syncSecondsLeft; split
  · exact ht
  · exact le_of_lt (phaseTotalSeconds_pos t.phase hp)

/-- Invariant `SchedInv`: the preferences stay in range, `secondsLeft` stays nonnegative. -/
def SchedInv (a : AppState) : Prop :=
  PrefsInRange a.prefs ∧ 0 ≤ a.timer.secondsLeft

theorem finishPhase_inv {a : AppState} (h : SchedInv a) : SchedInv (finishPhase a) := by
  obtain ⟨hp, hs⟩ := h
  unfold finishPhase
  refine ⟨hp, ?_⟩
  have h2 : 0 ≤ (nextPhase a.prefs { a.timer with isRunning := false }).secondsLeft := by
    rw [nextPhase_secondsLeft]; exact hs
  have h3 := syncSecondsLeft_nonneg
    (nextPhase a.prefs { a.timer with isRunning := false }) hp h2
  split <;> exact h3

theorem tickOp_inv {a : AppState} (h : SchedInv a) : SchedInv (tickOp a) := by
  obtain ⟨hp, hs⟩ := h
  unfold tickOp
  split
  · split
    · exact finishPhase_inv ⟨hp, le_rfl⟩
    · refine ⟨hp, ?_⟩
      show 0 ≤ a.timer.secondsLeft - 1
      omega
  · exact ⟨hp, hs⟩

theorem startOp_inv {a : AppState} (h : SchedInv a) : SchedInv (startOp a) := by
  obtain ⟨hp, hs⟩ := h
  exact ⟨hp, hs⟩

theorem pauseOp_inv {a : AppState} (h : SchedInv a) : SchedInv (pauseOp a) := by
  obtain ⟨hp, hs⟩ := h
  refine ⟨hp, ?_⟩
  show 0 ≤ (syncSecondsLeft a.prefs { a.timer with isRunning := false }).secondsLeft
  exact syncSecondsLeft_nonneg { a.timer with isRunning := false } hp hs

theorem resetPhase_inv {a : AppState} (h : SchedInv a) : SchedInv (resetPhase a) := by
  obtain ⟨hp, _⟩ := h
  exact ⟨hp, le_of_lt (phaseTotalSeconds_pos a.timer.phase hp)⟩

theorem resetAll_inv {a : AppState} (h : SchedInv a) : SchedInv (resetAll a) := by
  obtain ⟨hp, _⟩ := h
  exact ⟨hp, le_of_lt (phaseTotalSeconds_pos Phase.work hp)⟩

theorem skip_inv {a : AppState} (h : SchedInv a) : SchedInv (skip a) := by
  obtain ⟨hp, hs⟩ := h
  refine ⟨hp, ?_⟩
  show 0 ≤ (syncSecondsLeft a.prefs
    (nextPhase a.prefs { a.timer with isRunning := false })).secondsLeft
  refine syncSecondsLeft_nonneg _ hp ?_
  rw [nextPhase_secondsLeft]
  exact hs

theorem applyPreset_prefs_inRange (pr : Preset) (a : AppState) :
    PrefsInRange (applyPreset pr a).prefs :=
  ⟨⟨clampInt_lb (.fin pr.workMin) 1 180, clampInt_ub (.fin pr.workMin) 1 180 (by norm_num)⟩,
   ⟨clampInt_lb (.fin pr.breakMin) 1 120, clampInt_ub (.fin pr.breakMin) 1 120 (by norm_num)⟩,
   ⟨clampInt_lb (.fin pr.longBreakMin) 1 180,
    clampInt_ub (.fin pr.longBreakMin) 1 180 (by norm_num)⟩,
   ⟨clampInt_lb (.fin pr.longEvery) 0 20, clampInt_ub (.fin pr.longEvery) 0 20 (by norm_num)⟩⟩

theorem applyPreset_inv {a : AppState} (pr : Preset) : SchedInv (applyPreset pr a) := by
  have hp' := applyPreset_prefs_inRange pr a
  refine ⟨hp', ?_⟩
  show 0 ≤ phaseTotalSeconds (applyPreset pr a).prefs a.timer.phase
  exact le_of_lt (phaseTotalSeconds_pos a.timer.phase hp')

theorem setPrefsRender_inv {a : AppState} {p' : Prefs} (hp' : PrefsInRange p')
    (h : SchedInv a) : SchedInv (setPrefsRender p' a) := by
  obtain ⟨_, hs⟩ := h
  unfold setPrefsRender
  refine ⟨hp', ?_⟩
  split
  · exact hs
  · exact syncSecondsLeft_nonneg a.timer hp' hs

theorem reachable_inv {a : AppState} (h : Reachable a) : SchedInv a := by
  induction h with
  | init p hp =>
      exact ⟨hp, le_of_lt (phaseTotalSeconds_pos .work hp)⟩
  | tick _ ih => exact tickOp_inv ih
  | start _ ih => exact startOp_inv ih
  | pause _ ih => exact pauseOp_inv ih
  | reset _ ih => exact resetPhase_inv ih
  | resetEverything _ ih => exact resetAll_inv ih
  | skipPhase _ ih => exact skip_inv ih
  | preset pr _ _ => exact applyPreset_inv pr
  | editWork raw _ ih =>
      refine setPrefsRender_inv ?_ ih
      obtain ⟨⟨_, _⟩, hb, hl, he⟩ := ih.1
      exact ⟨⟨clampInt_lb _ 1 180, clampInt_ub _ 1 180 (by norm_num)⟩, hb, hl, he⟩
  | editBreak raw _ ih =>
      refine setPrefsRender_inv ?_ ih
      obtain ⟨hw, ⟨_, _⟩, hl, he⟩ := ih.1
      exact ⟨hw, ⟨clampInt_lb _ 1 120, clampInt_ub _ 1 120 (by norm_num)⟩, hl, he⟩
  | editLongBreak raw _ ih =>
      refine setPrefsRender_inv ?_ ih
      obtain ⟨hw, hb, ⟨_, _⟩, he⟩ := ih.1
      exact ⟨hw, hb, ⟨clampInt_lb _ 1 180, clampInt_ub _ 1 180 (by norm_num)⟩, he⟩
  | editLongEvery raw _ ih =>
      refine setPrefsRender_inv ?_ ih
      obtain ⟨hw, hb, hl, ⟨_, _⟩⟩ := ih.1
      exact ⟨hw, hb, hl, ⟨clampInt_lb _ 0 20, clampInt_ub _ 0 20 (by norm_num)⟩⟩
  | sound _ ih =>
      exact setPrefsRender_inv ih.1 ih
  | auto _ ih =>
      exact setPrefsRender_inv ih.1 ih

/-!
## Claim theorems
-/

/-- C1 (evaluation at the failing input): mount with the default
preferences (Work 25:00), press Start, let ten ticks arrive — the running
countdown stands at 1490 s.  Pressing Pause does set `isRunning = false`,
but the `secondsLeft` sync effect re-runs (its `isRunning` dependency
changed) and, with `!isRunning` now true, resets `secondsLeft` to the full
phase duration 1500: the paused residual 1490 is discarded, contrary to
the claim that pause retains it. -/
theorem pause_discards_residual_eval :
    pauseDemo.timer.isRunning = true ∧
    pauseDemo.timer.phase = Phase.work ∧
    pauseDemo.timer.secondsLeft = 1490 ∧
    (pauseOp pauseDemo).timer.isRunning = false ∧
    (pauseOp pauseDemo).timer.secondsLeft = 1500 := by
  decide

/-- C2: while running with `secondsRemaining = s ≥ 1`, delivering `n`
interval callbacks leaves the countdown at `max (s - n) 0`, and exactly one
completion event fires iff `n ≥ s` — it is fired by the tick that exhausts
the remainder (the count jumps from 0 to 1 exactly at `n = s`) and never a
second time for the phase (delivery ends at the completion because
`finishPhase` clears the interval before another tick can arrive).  The
value reported is the one the completing callback writes (`0`); the
deferred `finishPhase` afterwards moves the machine to the next phase. -/
theorem tick_progression_spec (s : ℤ) (n : ℕ) (h : 1 ≤ s) :
    deliverTicks s n = (max (s - (n : ℤ)) 0, if s ≤ (n : ℤ) then 1 else 0) := by
  induction n generalizing s with
  | zero =>
      rw [deliverTicks]
      rw [Nat.cast_zero, if_neg (by omega), max_eq_left (by omega), sub_zero]
  | succ n ih =>
      rw [deliverTicks]
      by_cases hs : s ≤ 1
      · have hs1 : s = 1 := le_antisymm hs h
        subst hs1
        simp only [tickCell, if_pos le_rfl]
        push_cast
        rw [max_eq_right (by omega), if_pos (by omega)]
      · simp only [tickCell, if_neg hs]
        show deliverTicks (s - 1) n = _
        rw [ih (s - 1) (by omega)]
        push_cast
        have e1 : s - 1 - (n : ℤ) = s - ((n : ℤ) + 1) := by ring
        have e2 : (if s - 1 ≤ (n : ℤ) then (1 : ℕ) else 0)
            = if s ≤ (n : ℤ) + 1 then 1 else 0 := by
          by_cases hc : s ≤ (n : ℤ) + 1
          · rw [if_pos hc, if_pos (by omega)]
          · rw [if_neg hc, if_neg (by omega)]
        rw [e1, e2]

/-- Witness for C2: concrete applications of `tick_progression_spec`
(`s = 3`): five ticks exhaust the phase (value 0, one completion), two
ticks leave 1 second and no completion. -/
theorem tick_progression_witness :
    deliverTicks 3 5 = (0, 1) ∧ deliverTicks 3 2 = (1, 0) := by
  constructor
  · have h := tick_progression_spec 3 5 (by norm_num)
    simpa using h
  · have h := tick_progression_spec 3 2 (by norm_num)
    simpa using h

/-- C3: from `work`, the transition increments `workSessionsDone` and
goes to `longBreak` exactly when `longEvery > 0` and the incremented count
is divisible by `longEvery`, else to `break`; from `break` or `longBreak`
it goes to `work` with the count untouched.  The divisibility reading of
the code's `nextCount % longEvery === 0` needs the count and cadence
nonnegative (both invariant).  Natural expiry (`finishPhase`) and `skip()`
both perform the transition by calling this `nextPhase`. -/
theorem nextPhase_transition_spec (p : Prefs) (t : TimerState) :
    (t.phase = Phase.work → 0 ≤ t.workSessionsDone → 0 ≤ p.longEvery →
      (nextPhase p t).workSessionsDone = t.workSessionsDone + 1 ∧
      (nextPhase p t).phase =
        (if 0 < p.longEvery ∧ p.longEvery ∣ (t.workSessionsDone + 1)
         then Phase.longBreak else Phase.«break»)) ∧
    (t.phase ≠ Phase.work →
      (nextPhase p t).phase = Phase.work ∧
      (nextPhase p t).workSessionsDone = t.workSessionsDone) := by
  obtain ⟨ph, s, r, c⟩ := t
  cases ph with
  | work =>
      refine ⟨fun _ hcnt hbnd => ⟨rfl, ?_⟩, fun hne => absurd rfl hne⟩
      have hc : (0 : ℤ) ≤ c := hcnt
      show (if (decide (0 < p.longEvery) && decide (jsMod (c + 1) p.longEvery = 0)) = true
            then Phase.longBreak else Phase.«break») = _
      have hiff : ((decide (0 < p.longEvery)
            && decide (jsMod (c + 1) p.longEvery = 0)) = true)
          ↔ (0 < p.longEvery ∧ p.longEvery ∣ (c + 1)) := by
        rw [Bool.and_eq_true, decide_eq_true_eq, decide_eq_true_eq,
            jsMod_eq_zero_iff (by omega) hbnd]
      exact if_congr hiff rfl rfl
  | «break» => exact ⟨(fun h => nomatch h), fun _ => ⟨rfl, rfl⟩⟩
  | longBreak => exact ⟨(fun h => nomatch h), fun _ => ⟨rfl, rfl⟩⟩

/-- Witness for C3: with `longEvery = 4` and sessions completed so far
0, 1, 2, the work transition chooses `break`; the 4th completion (count 3
becoming 4) chooses `longBreak`; from `break` the transition returns to
`work`. -/
theorem nextPhase_transition_witness :
    (nextPhase defaultPrefs ⟨.work, 0, false, 0⟩).phase = Phase.«break» ∧
    (nextPhase defaultPrefs ⟨.work, 0, false, 1⟩).phase = Phase.«break» ∧
    (nextPhase defaultPrefs ⟨.work, 0, false, 2⟩).phase = Phase.«break» ∧
    (nextPhase defaultPrefs ⟨.work, 0, false, 3⟩).phase = Phase.longBreak ∧
    (nextPhase defaultPrefs ⟨.«break», 0, false, 1⟩).phase = Phase.work := by
  refine ⟨?_, ?_, ?_, ?_, ?_⟩
  · have h := (nextPhase_transition_spec defaultPrefs ⟨.work, 0, false, 0⟩).1
      rfl (by decide) (by decide)
    rw [h.2, if_neg (by decide)]
  · have h := (nextPhase_transition_spec defaultPrefs ⟨.work, 0, false, 1⟩).1
      rfl (by decide) (by decide)
    rw [h.2, if_neg (by decide)]
  · have h := (nextPhase_transition_spec defaultPrefs ⟨.work, 0, false, 2⟩).1
      rfl (by decide) (by decide)
    rw [h.2, if_neg (by decide)]
  · have h := (nextPhase_transition_spec defaultPrefs ⟨.work, 0, false, 3⟩).1
      rfl (by decide) (by decide)
    rw [h.2, if_pos (by decide)]
  · exact ((nextPhase_transition_spec defaultPrefs ⟨.«break», 0, false, 1⟩).2 (by decide)).1

/-- C4: with `longEvery = 0` the transition never yields `longBreak`
for any session count: the guard `longEvery > 0 &&` makes the cadence test
false before the modulo is consulted (in this embedding `jsMod _ 0` is a
total function whose value the short-circuited `&&` never inspects), so
the state is a defined non-error one — from `work` the transition goes to
`break`, otherwise to `work`. -/
theorem longEvery_zero_suppresses_longBreak (p : Prefs) (t : TimerState)
    (h : p.longEvery = 0) :
    (nextPhase p t).phase = (if t.phase = Phase.work then Phase.«break» else Phase.work) ∧
    (nextPhase p t).phase ≠ Phase.longBreak := by
  obtain ⟨ph, s, r, c⟩ := t
  cases ph with
  | work =>
      refine ⟨?_, ?_⟩
      · show (if (decide (0 < p.longEvery) && decide (jsMod (c + 1) p.longEvery = 0)) = true
              then Phase.longBreak else Phase.«break») = _
        rw [h]
        simp
      · show (if (decide (0 < p.longEvery) && decide (jsMod (c + 1) p.longEvery = 0)) = true
              then Phase.longBreak else Phase.«break») ≠ Phase.longBreak
        rw [h]
        simp
  | «break» =>
      refine ⟨?_, ?_⟩
      · show Phase.work = _
        exact (if_neg (by decide : ¬(Phase.«break» = Phase.work))).symm
      · show Phase.work ≠ Phase.longBreak
        decide
  | longBreak =>
      refine ⟨?_, ?_⟩
      · show Phase.work = _
        exact (if_neg (by decide : ¬(Phase.longBreak = Phase.work))).symm
      · show Phase.work ≠ Phase.longBreak
        decide

/-- Witness for C4: cadence 0, a work state with 3 completed sessions —
the transition yields `break`, not `longBreak`. -/
theorem longEvery_zero_witness :
    (nextPhase { defaultPrefs with longEvery := 0 } ⟨.work, 0, false, 3⟩).phase
        = Phase.«break» ∧
    (nextPhase { defaultPrefs with longEvery := 0 } ⟨.work, 0, false, 3⟩).phase
        ≠ Phase.longBreak := by
  have h := longEvery_zero_suppresses_longBreak { defaultPrefs with longEvery := 0 }
    ⟨.work, 0, false, 3⟩ rfl
  exact ⟨by rw [h.1, if_pos rfl], h.2⟩

/-- C5: the function `resetAll()` from any prior state yields phase `work`, not
running, `secondsLeft = workMin * 60`, zero completed sessions, and leaves
the preferences untouched. -/
theorem resetAll_spec (a : AppState) :
    resetAll a =
      { prefs := a.prefs
        timer := { phase := Phase.work, secondsLeft := a.prefs.workMin * 60
                   isRunning := false, workSessionsDone := 0 } } := rfl

/-- C6: each numeric preference edit clamps the raw input at the moment
of assignment — `workMinutes` set to `0`, `-5`, `9999` or a non-numeric
string (`Number("abc")` is `NaN`) stores exactly `1`, `1`, `180`, `1` — and
whatever the raw input, every one of the four numeric fields is stored
within its declared range. -/
theorem preference_clamp_spec :
    workMinEdit (.fin 0) = 1 ∧ workMinEdit (.fin (-5)) = 1 ∧
    workMinEdit (.fin 9999) = 180 ∧ workMinEdit .nan = 1 ∧
    (∀ n : JSNum, 1 ≤ workMinEdit n ∧ workMinEdit n ≤ 180) ∧
    (∀ n : JSNum, 1 ≤ breakMinEdit n ∧ breakMinEdit n ≤ 120) ∧
    (∀ n : JSNum, 1 ≤ longBreakMinEdit n ∧ longBreakMinEdit n ≤ 180) ∧
    (∀ n : JSNum, 0 ≤ longEveryEdit n ∧ longEveryEdit n ≤ 20) := by
  refine ⟨by decide, by decide, by decide, by decide, ?_, ?_, ?_, ?_⟩
  · exact fun n => ⟨clampInt_lb n 1 180, clampInt_ub n 1 180 (by norm_num)⟩
  · exact fun n => ⟨clampInt_lb n 1 120, clampInt_ub n 1 120 (by norm_num)⟩
  · exact fun n => ⟨clampInt_lb n 1 180, clampInt_ub n 1 180 (by norm_num)⟩
  · exact fun n => ⟨clampInt_lb n 0 20, clampInt_ub n 0 20 (by norm_num)⟩

/-- C7: the function `applyPreset` stops the timer, overwrites exactly the four
duration/cadence fields (each clamped), recomputes `secondsLeft` as the
current phase's full duration under the new preferences, and leaves the
phase, the session count and the remaining preference fields untouched; in
particular from a `break` phase the new countdown is the preset's (clamped)
`breakMin * 60`. -/
theorem applyPreset_frame_spec (pr : Preset) (a : AppState) :
    (applyPreset pr a).prefs.workMin = clampInt (.fin pr.workMin) 1 180 ∧
    (applyPreset pr a).prefs.breakMin = clampInt (.fin pr.breakMin) 1 120 ∧
    (applyPreset pr a).prefs.longBreakMin = clampInt (.fin pr.longBreakMin) 1 180 ∧
    (applyPreset pr a).prefs.longEvery = clampInt (.fin pr.longEvery) 0 20 ∧
    (applyPreset pr a).prefs.autoStartNext = a.prefs.autoStartNext ∧
    (applyPreset pr a).prefs.soundOn = a.prefs.soundOn ∧
    (applyPreset pr a).timer.isRunning = false ∧
    (applyPreset pr a).timer.phase = a.timer.phase ∧
    (applyPreset pr a).timer.workSessionsDone = a.timer.workSessionsDone ∧
    (applyPreset pr a).timer.secondsLeft
        = phaseTotalSeconds (applyPreset pr a).prefs a.timer.phase ∧
    (a.timer.phase = Phase.«break» →
      (applyPreset pr a).timer.secondsLeft = clampInt (.fin pr.breakMin) 1 120 * 60) := by
  refine ⟨rfl, rfl, rfl, rfl, rfl, rfl, rfl, rfl, rfl, rfl, ?_⟩
  intro hb
  show phaseTotalSeconds _ a.timer.phase = _
  rw [hb]
  rfl

/-- A running mid-break state used to witness C7. -/
def breakDemo : AppState :=
  { prefs := defaultPrefs
    timer := { phase := Phase.«break», secondsLeft := 123
               isRunning := true, workSessionsDone := 2 } }

/-- Witness for C7: applying `Classic 25/5` while running in `break`
stops the timer, keeps the phase, and sets the countdown to `5 * 60`. -/
theorem applyPreset_frame_witness :
    (applyPreset classicPreset breakDemo).timer.isRunning = false ∧
    (applyPreset classicPreset breakDemo).timer.phase = Phase.«break» ∧
    (applyPreset classicPreset breakDemo).timer.secondsLeft = 300 := by
  have h := applyPreset_frame_spec classicPreset breakDemo
  refine ⟨h.2.2.2.2.2.2.1, h.2.2.2.2.2.2.2.1, ?_⟩
  have h2 := h.2.2.2.2.2.2.2.2.2.2 rfl
  rw [h2]
  decide

/-- C8 counterexample: the stored string `"{}"` is well-formed JSON
with every Preferences field missing (maximal schema drift); `load`
returns it unchanged — `workMin` is absent, not defaulted — so `load` does
not return a complete Preferences value there. -/
theorem load_schema_drift_counterexample :
    ¬ (load (RawStored.wellFormed blankStored)).complete ∧
    (load (RawStored.wellFormed blankStored)).workMin = none := by
  exact ⟨by decide, rfl⟩

/-- C8 as amended: the function `load` is total (never raises); it falls
back to the defaults wholesale when the key is missing, the stored string
is empty, or parsing fails, and returns a successfully parsed record
unchanged — schema drift is tolerated without crashing, but absent fields
stay absent rather than being defaulted field-by-field. -/
theorem load_fallback_spec :
    load RawStored.missing = defaultStored ∧
    load RawStored.empty = defaultStored ∧
    load RawStored.malformed = defaultStored ∧
    (∀ r : StoredRecord, load (RawStored.wellFormed r) = r) :=
  ⟨rfl, rfl, rfl, fun _ => rfl⟩

/-- C9: the value `secondsLeft` is nonnegative in every state reachable from a
mount with in-range preferences under ticks, start, pause, skip, resets,
presets and preference edits. -/
theorem reachable_secondsLeft_nonneg {a : AppState} (h : Reachable a) :
    0 ≤ a.timer.secondsLeft :=
  (reachable_inv h).2

/-- Witness for C9: the default mount is reachable and its countdown
(1500) is nonnegative. -/
theorem reachable_secondsLeft_nonneg_witness :
    0 ≤ (initState defaultPrefs).timer.secondsLeft :=
  reachable_secondsLeft_nonneg (Reachable.init defaultPrefs (by decide))

/-!
## Variant equivalence helpers (C10)
-/

theorem core_clampInt (n : JSNum) (lo hi : ℤ) :
    V3.clampInt n lo hi = clampInt n lo hi := by
  cases n <;> rfl

theorem corePrefs_phaseTotal (p : V3.Prefs) (ph : Phase) :
    V3.phaseTotalSeconds p ph = phaseTotalSeconds (corePrefs p) ph := by
  cases ph <;> rfl

theorem core_nextPhase (p : V3.Prefs) (t : TimerState) :
    V3.nextPhase p t = nextPhase (corePrefs p) t := by
  obtain ⟨ph, s, r, c⟩ := t
  cases ph <;> rfl

theorem core_sync (p : V3.Prefs) (t : TimerState) :
    V3.syncSecondsLeft p t = syncSecondsLeft (corePrefs p) t := by
  unfold V3.syncSecondsLeft syncSecondsLeft
  rw [corePrefs_phaseTotal]

theorem core_finishPhase (a : V3.AppState) :
    coreApp (V3.finishPhase a) = finishPhase (coreApp a) := by
  simp only [V3.finishPhase, finishPhase, coreApp, core_nextPhase, core_sync]
  rfl

theorem core_tickOp (a : V3.AppState) :
    coreApp (V3.tickOp a) = tickOp (coreApp a) := by
  unfold V3.tickOp tickOp
  by_cases hr : a.timer.isRunning
  · rw [if_pos hr, if_pos (show (coreApp a).timer.isRunning from hr)]
    by_cases hs : a.timer.secondsLeft ≤ 1
    · rw [if_pos hs, if_pos (show (coreApp a).timer.secondsLeft ≤ 1 from hs)]
      exact core_finishPhase _
    · rw [if_neg hs, if_neg (show ¬(coreApp a).timer.secondsLeft ≤ 1 from hs)]
      rfl
  · rw [if_neg hr, if_neg (show ¬(coreApp a).timer.isRunning = true from hr)]

theorem core_resetPhase (a : V3.AppState) :
    coreApp (V3.resetPhase a) = resetPhase (coreApp a) := by
  simp only [V3.resetPhase, resetPhase, coreApp, corePrefs_phaseTotal]

theorem core_resetAll (a : V3.AppState) :
    coreApp (V3.resetAll a) = resetAll (coreApp a) := rfl

theorem core_skip (a : V3.AppState) :
    coreApp (V3.skip a) = skip (coreApp a) := by
  simp only [V3.skip, skip, coreApp, core_nextPhase, core_sync]

theorem core_applyPreset (pr : Preset) (a : V3.AppState) :
    coreApp (V3.applyPreset pr a) = applyPreset pr (coreApp a) := by
  unfold V3.applyPreset applyPreset
  simp only [core_clampInt, corePrefs_phaseTotal]
  rfl

/-- C10: the scheduling cores of the two UI variants coincide: under
the projection that drops `part_000`'s cosmetic preference fields, each
operation of the `part_000` variant (`V3.*`) produces exactly the phase,
`secondsLeft`, `isRunning` and `workSessionsDone` results of the
`page.tsx` variant, and `clampInt` is the same function in both. -/
theorem variants_core_equivalent :
    (∀ (n : JSNum) (lo hi : ℤ), V3.clampInt n lo hi = clampInt n lo hi) ∧
    (∀ (p : V3.Prefs) (ph : Phase),
        V3.phaseTotalSeconds p ph = phaseTotalSeconds (corePrefs p) ph) ∧
    (∀ (p : V3.Prefs) (t : TimerState),
        V3.nextPhase p t = nextPhase (corePrefs p) t) ∧
    (∀ a : V3.AppState, coreApp (V3.tickOp a) = tickOp (coreApp a)) ∧
    (∀ a : V3.AppState, coreApp (V3.finishPhase a) = finishPhase (coreApp a)) ∧
    (∀ a : V3.AppState, coreApp (V3.resetPhase a) = resetPhase (coreApp a)) ∧
    (∀ a : V3.AppState, coreApp (V3.resetAll a) = resetAll (coreApp a)) ∧
    (∀ a : V3.AppState, coreApp (V3.skip a) = skip (coreApp a)) ∧
    (∀ (pr : Preset) (a : V3.AppState),
        coreApp (V3.applyPreset pr a) = applyPreset pr (coreApp a)) :=
  ⟨core_clampInt, corePrefs_phaseTotal, core_nextPhase, core_tickOp, core_finishPhase,
   core_resetPhase, core_resetAll, core_skip, core_applyPreset⟩
